import Mathlib

/-!
# Reflect: a type-erased binder over externally owned scalars

Shallow embedding of `include/Reflect.h`.

* External storage (the variables of the caller) is a partial map from addresses to
  typed objects.  A pointer is `Option Loc`, `none` being `nullptr`.
* The objects owned through `std::shared_ptr<TypeBase>` live in a list; a
  handle is an index into it and `std::make_shared` appends.
* Every operation that dereferences a pointer returns an `Option`; `none`
  stands for undefined behaviour (null or dangling dereference, or an access
  through a pointer of the wrong type).
* Integer objects carry their mathematical value.  The code only copies,
  promotes, compares and prints them, all of which are exact on that value.
* What the C++ implementation leaves to the platform (`type_info::before`, and
  the rendering and comparison of floating-point objects) is a parameter.
-/

namespace Hellebore

/-- Address of an object in external storage. -/
abbrev Loc := Nat

/-- Raw pointer: `none` is `nullptr`. -/
abbrev Ptr := Option Loc

/-- Target of a `std::shared_ptr<TypeBase>`. -/
abbrev Handle := Nat

/-- The thirteen `RTYPE` arguments of `HELLEBORE_REFLECTION_BUILDER` (Reflect.h:90-104)
and `std::string` (Reflect.h:106-107, 193).  The overloaded constructors
`Reflect(RTYPE* x)` can only coexist when these name pairwise distinct types. -/
inductive Kind
  | uint8_t | uint16_t | uint32_t | uint64_t
  | int8_t | int16_t | int32_t | int64_t
  | float | double | long | bool | char
  | string
  deriving DecidableEq, Repr

/-- Shape of the values of a kind. -/
inductive Category
  | integral | floating | text
  deriving DecidableEq, Repr

def Kind.category : Kind → Category
  | .float => .floating
  | .double => .floating
  | .string => .text
  | _ => .integral

/-- Contents of an external object: the value of an integer, `bool` or `char`
object, the representation of a floating-point object, or a string. -/
inductive Value
  | integral (i : Int)
  | floating (bits : Nat)
  | text (s : String)
  deriving DecidableEq, Repr

def Value.category : Value → Category
  | .integral _ => .integral
  | .floating _ => .floating
  | .text _ => .text

/-- An external object: its static type and its contents. -/
structure Obj where
  kind : Kind
  val : Value
  deriving DecidableEq, Repr

/-- External storage. -/
abbrev Memory := Loc → Option Obj

/-- The `std::type_info` objects the code can produce: `typeid(TypeBase)`
(Reflect.h:67) and `typeid(RTYPE)` (Reflect.h:30, 205).  Equality of
`type_info` is equality of the types. -/
inductive type_info
  | TypeBase
  | RTYPE (k : Kind)
  deriving DecidableEq, Repr

/-- Platform-defined parts of the C++ implementation. -/
structure Platform where
  /-- Models `std::type_info::before`. -/
  before : type_info → type_info → Bool
  /-- Models `std::to_string` on a `float` or `double` object. -/
  to_string_fp : Kind → Nat → String
  /-- Models the built-in `<` on two `float` or two `double` objects. -/
  lt_fp : Kind → Nat → Nat → Bool

/-- The collation order of `type_info::before` is a strict total order. -/
structure Platform.Collation (P : Platform) : Prop where
  irrefl : ∀ a, P.before a a = false
  trans : ∀ a b c, P.before a b = true → P.before b c = true → P.before a c = true
  total : ∀ a b, a ≠ b → P.before a b = true ∨ P.before b a = true

/-- Models `std::to_string` on an integer argument: decimal digits, with a
leading minus sign for a negative value. -/
def to_string (i : Int) : String :=
  match i with
  | .ofNat n => Nat.repr n
  | .negSucc n => "-" ++ Nat.repr (n + 1)

/-- The text the code produces for a value of kind `k`: `std::to_string(v)`
for the numeric kinds (Reflect.h:26), the string itself for text
(Reflect.h:201). -/
def render (P : Platform) (k : Kind) : Value → String
  | .integral i => to_string i
  | .floating b => P.to_string_fp k b
  | .text s => s

/-- The built-in `<` of kind `k` on two values of that kind. -/
def native_lt (P : Platform) (k : Kind) : Value → Value → Option Bool
  | .integral a, .integral b => some (decide (a < b))
  | .floating a, .floating b => some (P.lt_fp k a b)
  | _, _ => none

/-- Reads `*reinterpret_cast<K*>(p)`: defined when a live object of type `K` is at `p`. -/
def load (mem : Memory) (k : Kind) (p : Loc) : Option Value :=
  match mem p with
  | some o => if o.kind = k ∧ k.category = o.val.category then some o.val else none
  | none => none

/-- Writes `*reinterpret_cast<K*>(p) = v`: defined when a live object of type `K` is at `p`. -/
def store (mem : Memory) (k : Kind) (p : Loc) (v : Value) : Option Memory :=
  match mem p with
  | some o => if o.kind = k then some (fun q => if q = p then some ⟨k, v⟩ else mem q) else none
  | none => none

/-- An object reachable through `std::shared_ptr<TypeBase>`: a plain `TypeBase`
(Reflect.h:56-69), or a `Reflect_##RTYPE` / `Reflect_string` with its `bound`
pointer (Reflect.h:18-34, 193-209). -/
inductive TypeBase
  | base
  | Reflect_ (RTYPE : Kind) (bound : Ptr)
  deriving DecidableEq, Repr

/-- Virtual `string()`: Reflect.h:63, 26, 201. -/
def TypeBase.string (P : Platform) (mem : Memory) : TypeBase → Option String
  | .base => some ""
  | .Reflect_ k bound => do
    let p ← bound
    let v ← load mem k p
    some (render P k v)

/-- Virtual `set(void* x)`: Reflect.h:64, 27, 202. -/
def TypeBase.set (mem : Memory) (x : Ptr) : TypeBase → Option Memory
  | .base => some mem
  | .Reflect_ k bound => do
    let src ← x
    let v ← load mem k src
    let dst ← bound
    store mem k dst v

/-- Virtual `bind(void* x)`: Reflect.h:65, 28, 203. -/
def TypeBase.bind (x : Ptr) : TypeBase → TypeBase
  | .base => .base
  | .Reflect_ k _ => .Reflect_ k x

/-- Virtual `get()`: Reflect.h:66, 29, 204. -/
def TypeBase.get : TypeBase → Ptr
  | .base => none
  | .Reflect_ _ bound => bound

/-- Virtual `type()`: Reflect.h:67, 30, 205. -/
def TypeBase.type : TypeBase → type_info
  | .base => .TypeBase
  | .Reflect_ k _ => .RTYPE k

/-- Virtual `operator<`: Reflect.h:68 and 31.  `Reflect_string` has no
override (Reflect.h:193-209), so it runs the `TypeBase` body.  The macro
override reinterprets `other` as its own class. -/
def TypeBase.operator_lt (P : Platform) (mem : Memory) (this other : TypeBase) : Option Bool :=
  match this with
  | .base => some false
  | .Reflect_ k bound =>
    if k = Kind.string then some false
    else
      match other with
      | .base => none
      | .Reflect_ k2 bound2 =>
        if k2 = k then do
          let p ← bound
          let a ← load mem k p
          let q ← bound2
          let b ← load mem k q
          native_lt P k a b
        else none

/-- Program state: external storage and the objects owned by shared handles. -/
structure State where
  mem : Memory
  heap : List TypeBase

/-- The facade: `std::shared_ptr<TypeBase> value` (Reflect.h:212). -/
structure Reflect where
  value : Option Handle
  deriving DecidableEq, Repr

/-- Default constructor `Reflect() : value(nullptr)`: Reflect.h:75. -/
def Reflect.ctor_default : Reflect := ⟨none⟩

/-- Copy constructor `Reflect(const Reflect& other) : value(other.value)`: Reflect.h:80. -/
def Reflect.ctor_copy (other : Reflect) : Reflect := ⟨other.value⟩

/-- Binding constructor `Reflect(RTYPE* x) : value(std::make_shared<Reflect_##RTYPE>(x))`:
Reflect.h:35, 106-107. -/
def Reflect.ctor_ptr (k : Kind) (x : Ptr) (σ : State) : Reflect × State :=
  (⟨some σ.heap.length⟩, { σ with heap := σ.heap ++ [TypeBase.Reflect_ k x] })

/-- Dereference of the handle, `this->value->`: undefined on a null handle. -/
def Reflect.deref (r : Reflect) (σ : State) : Option TypeBase := do
  let h ← r.value
  σ.heap[h]?

/-- Assignment by value `template<typename T> T& operator=(T& x)`: Reflect.h:117-122.
The argument is the address of `x`; the result is the referenced location. -/
def Reflect.operator_assign (r : Reflect) (x : Loc) (σ : State) : Option (Loc × State) := do
  let a ← r.deref σ
  let mem2 ← a.set σ.mem (some x)
  let p ← a.get
  some (p, { σ with mem := mem2 })

/-- Assignment by pointer `template<typename T> T& operator=(T* const x)`: Reflect.h:127-131. -/
def Reflect.operator_assign_ptr (r : Reflect) (x : Ptr) (σ : State) : Option (Loc × State) := do
  let h ← r.value
  let a ← σ.heap[h]?
  let a2 := a.bind x
  let p ← a2.get
  some (p, { σ with heap := σ.heap.set h a2 })

/-- Conversion `operator std::string const()`: Reflect.h:136-146. -/
def Reflect.operator_string (P : Platform) (r : Reflect) (σ : State) : Option String :=
  match r.value with
  | none => some ""
  | some h => do
    let a ← σ.heap[h]?
    a.string P σ.mem

/-- Conversion `operator RTYPE() const`: Reflect.h:36. -/
def Reflect.operator_RTYPE (k : Kind) (r : Reflect) (σ : State) : Option Value := do
  let a ← r.deref σ
  let p ← a.get
  load σ.mem k p

/-- Kind query `type()`: Reflect.h:151. -/
def Reflect.type (r : Reflect) (σ : State) : Option type_info := do
  let a ← r.deref σ
  some a.type

/-- Equality against text `operator==(const std::string& x)`: Reflect.h:165-168. -/
def Reflect.operator_eq (P : Platform) (r : Reflect) (x : String) (σ : State) : Option Bool := do
  let a ← r.deref σ
  let s ← a.string P σ.mem
  some (decide (x = s))

/-- Ordering `operator<(const Reflect& other) const`: Reflect.h:173-183. -/
def Reflect.operator_lt (P : Platform) (this other : Reflect) (σ : State) : Option Bool := do
  let t1 ← this.type σ
  let t2 ← other.type σ
  if t1 = t2 then do
    let a ← this.deref σ
    let b ← other.deref σ
    a.operator_lt P σ.mem b
  else
    some (P.before t1 t2)

/-- Typed read-back of a facade as kind `k`: `static_cast<RTYPE>(r)` for the
macro kinds, `static_cast<std::string>(r)` for text. -/
def Reflect.read_back (P : Platform) (k : Kind) (r : Reflect) (σ : State) : Option Value :=
  if k = Kind.string then (r.operator_string P σ).map Value.text
  else r.operator_RTYPE k σ

/-- Facade `r` is bound, through a handle it holds, to the live external object
of kind `k` at `l` whose current contents are `v`. -/
def Bound (σ : State) (r : Reflect) (k : Kind) (l : Loc) (v : Value) : Prop :=
  r.deref σ = some (TypeBase.Reflect_ k (some l)) ∧ σ.mem l = some ⟨k, v⟩ ∧ k.category = v.category

instance instDecidableBound (σ : State) (r : Reflect) (k : Kind) (l : Loc) (v : Value) :
    Decidable (Bound σ r k l v) := by
  unfold Bound; infer_instance

/-- A platform whose collation order follows the declaration order of the kinds. -/
def Kind.index : Kind → Nat
  | .uint8_t => 1 | .uint16_t => 2 | .uint32_t => 3 | .uint64_t => 4
  | .int8_t => 5 | .int16_t => 6 | .int32_t => 7 | .int64_t => 8
  | .float => 9 | .double => 10 | .long => 11 | .bool => 12 | .char => 13
  | .string => 14

def type_info.index : type_info → Nat
  | .TypeBase => 0
  | .RTYPE k => k.index

def samplePlatform : Platform where
  before a b := decide (a.index < b.index)
  to_string_fp _ b := Nat.repr b
  lt_fp _ a b := decide (a < b)

/-- Sample storage: a `uint8_t` 123 at 0, a `uint8_t` 234 at 1, a `uint16_t` 5 at 2,
strings at 3 and 4. -/
def sampleMem : Memory := fun l =>
  match l with
  | 0 => some ⟨Kind.uint8_t, Value.integral 123⟩
  | 1 => some ⟨Kind.uint8_t, Value.integral 234⟩
  | 2 => some ⟨Kind.uint16_t, Value.integral 5⟩
  | 3 => some ⟨Kind.string, Value.text "a"⟩
  | 4 => some ⟨Kind.string, Value.text "b"⟩
  | _ => none

/-- Sample state: five adapters, the one at handle `n` bound to address `n`. -/
def sampleState : State :=
  ⟨sampleMem,
    [TypeBase.Reflect_ Kind.uint8_t (some 0), TypeBase.Reflect_ Kind.uint8_t (some 1),
     TypeBase.Reflect_ Kind.uint16_t (some 2), TypeBase.Reflect_ Kind.string (some 3),
     TypeBase.Reflect_ Kind.string (some 4)]⟩

/-- Facade holding handle `n`. -/
def sampleFacade (n : Handle) : Reflect := ⟨some n⟩

/-- Trace of `uint8_t x = 123, y = 234; Reflect A(&x); Reflect B(A); B = &y;` followed
by the text conversion of `A` (`x` at address 0, `y` at address 1). -/
def rebindTrace : Option String :=
  let p := Reflect.ctor_ptr Kind.uint8_t (some 0) ⟨sampleMem, []⟩
  let A := p.1
  let B := Reflect.ctor_copy A
  match B.operator_assign_ptr (some 1) p.2 with
  | none => none
  | some q => A.operator_string samplePlatform q.2

/-- The same trace followed by `uint8_t z = 77; A = z;` (`z` at address 5), returning
the final contents of `x` and `y`. -/
def rebindThenAssignTrace : Option (Option Obj × Option Obj) :=
  let p := Reflect.ctor_ptr Kind.uint8_t (some 0)
    ⟨fun l => if l = 5 then some ⟨Kind.uint8_t, Value.integral 77⟩ else sampleMem l, []⟩
  let A := p.1
  let B := Reflect.ctor_copy A
  match B.operator_assign_ptr (some 1) p.2 with
  | none => none
  | some q =>
    match A.operator_assign 5 q.2 with
    | none => none
    | some t => some (t.2.mem 0, t.2.mem 1)

/-- All supported kinds, in declaration order. -/
def Kind.all : List Kind :=
  [.uint8_t, .uint16_t, .uint32_t, .uint64_t, .int8_t, .int16_t, .int32_t, .int64_t,
   .float, .double, .long, .bool, .char, .string]

/-! ## Auxiliary facts -/

theorem load_of_live {mem : Memory} {k : Kind} {l : Loc} {v : Value}
    (hm : mem l = some ⟨k, v⟩) (hv : k.category = v.category) : load mem k l = some v := by
  simp [load, hm, hv]

theorem load_of_bound {σ : State} {r : Reflect} {k : Kind} {l : Loc} {v : Value}
    (hb : Bound σ r k l v) : load σ.mem k l = some v :=
  load_of_live hb.2.1 hb.2.2

theorem value_of_bound {σ : State} {r : Reflect} {k : Kind} {l : Loc} {v : Value}
    (hb : Bound σ r k l v) :
    ∃ h, r.value = some h ∧ σ.heap[h]? = some (TypeBase.Reflect_ k (some l)) := by
  have h1 := hb.1
  unfold Reflect.deref at h1
  cases hr : r.value with
  | none => simp [hr] at h1
  | some h => exact ⟨h, rfl, by simpa [hr] using h1⟩

theorem operator_string_of_bound (P : Platform) {σ : State} {r : Reflect} {k : Kind} {l : Loc}
    {v : Value} (hb : Bound σ r k l v) : r.operator_string P σ = some (render P k v) := by
  obtain ⟨h, hr, hh⟩ := value_of_bound hb
  simp [Reflect.operator_string, hr, hh, TypeBase.string, load_of_bound hb]

theorem operator_RTYPE_of_bound {σ : State} {r : Reflect} {k : Kind} {l : Loc}
    {v : Value} (hb : Bound σ r k l v) : r.operator_RTYPE k σ = some v := by
  simp [Reflect.operator_RTYPE, hb.1, TypeBase.get, load_of_bound hb]

theorem render_text (P : Platform) {k : Kind} {v : Value} (hk : k = Kind.string)
    (hv : k.category = v.category) : Value.text (render P k v) = v := by
  subst hk
  cases v <;> simp [Kind.category, Value.category, render] at hv ⊢

theorem read_back_of_bound (P : Platform) {σ : State} {r : Reflect} {k : Kind} {l : Loc}
    {v : Value} (hb : Bound σ r k l v) : r.read_back P k σ = some v := by
  unfold Reflect.read_back
  split
  · rename_i hk
    simp [operator_string_of_bound P hb, render_text P hk hb.2.2]
  · exact operator_RTYPE_of_bound hb

theorem type_of_bound {σ : State} {r : Reflect} {k : Kind} {l : Loc} {v : Value}
    (hb : Bound σ r k l v) : r.type σ = some (type_info.RTYPE k) := by
  simp [Reflect.type, hb.1, TypeBase.type]

theorem store_of_live {mem : Memory} {k : Kind} {l : Loc} {old : Value} (w : Value)
    (hm : mem l = some ⟨k, old⟩) :
    store mem k l w = some (fun q => if q = l then some ⟨k, w⟩ else mem q) := by
  simp [store, hm]

/-- Overwriting the bound object keeps the facade bound, now to the new contents. -/
theorem bound_after_store {σ : State} {r : Reflect} {k : Kind} {l : Loc} {old w : Value}
    (hb : Bound σ r k l old) (hw : k.category = w.category) :
    Bound ⟨fun q => if q = l then some ⟨k, w⟩ else σ.mem q, σ.heap⟩ r k l w := by
  refine ⟨?_, by simp, hw⟩
  have h1 := hb.1
  simpa [Reflect.deref] using h1

/-- Assignment by value through a bound facade, spelled out. -/
theorem operator_assign_of_bound {σ : State} {r : Reflect} {k : Kind} {l x : Loc} {old v : Value}
    (hb : Bound σ r k l old) (hx : σ.mem x = some ⟨k, v⟩) (hv : k.category = v.category) :
    r.operator_assign x σ
      = some (l, ⟨fun q => if q = l then some ⟨k, v⟩ else σ.mem q, σ.heap⟩) := by
  simp [Reflect.operator_assign, hb.1, TypeBase.set, load_of_live hx hv,
    store_of_live v hb.2.1, TypeBase.get]

/-- The facade ordering on two bound facades, spelled out. -/
theorem operator_lt_of_bound (P : Platform) {σ : State} {A B : Reflect} {KA KB : Kind}
    {LA LB : Loc} {a b : Value} (hA : Bound σ A KA LA a) (hB : Bound σ B KB LB b) :
    A.operator_lt P B σ =
      if KA = KB then (if KA = Kind.string then some false else native_lt P KA a b)
      else some (P.before (type_info.RTYPE KA) (type_info.RTYPE KB)) := by
  by_cases hk : KA = KB
  · subst hk
    by_cases hs : KA = Kind.string
    · simp [Reflect.operator_lt, type_of_bound hA, type_of_bound hB, hA.1, hB.1,
        TypeBase.operator_lt, hs]
    · simp [Reflect.operator_lt, type_of_bound hA, type_of_bound hB, hA.1, hB.1,
        TypeBase.operator_lt, hs, load_of_bound hA, load_of_bound hB]
  · simp [Reflect.operator_lt, type_of_bound hA, type_of_bound hB, hk]

theorem integral_of_category {k : Kind} {v : Value} (hk : k.category = Category.integral)
    (hv : k.category = v.category) : ∃ i, v = Value.integral i := by
  cases v with
  | integral i => exact ⟨i, rfl⟩
  | floating b => simp [hk, Value.category] at hv
  | text s => simp [hk, Value.category] at hv

theorem not_string_of_integral {k : Kind} (hk : k.category = Category.integral) :
    k ≠ Kind.string := by
  intro h
  subst h
  simp [Kind.category] at hk

/-- A kind is integral, or text, unless it is floating. -/
theorem integral_or_string {k : Kind} (hk : k.category ≠ Category.floating) :
    k.category = Category.integral ∨ k = Kind.string := by
  cases k <;> simp [Kind.category] at hk ⊢

/-- On non-floating kinds two bound facades of one kind compare as their values
do, except that text never compares less. -/
theorem operator_lt_same_kind (P : Platform) {σ : State} {A B : Reflect} {K : Kind}
    {LA LB : Loc} {a b : Value} (hA : Bound σ A K LA a) (hB : Bound σ B K LB b)
    (hK : K.category ≠ Category.floating) :
    (K = Kind.string ∧ A.operator_lt P B σ = some false) ∨
    (∃ i j, a = Value.integral i ∧ b = Value.integral j ∧
      A.operator_lt P B σ = some (decide (i < j))) := by
  rcases integral_or_string hK with hi | hs
  · right
    obtain ⟨i, rfl⟩ := integral_of_category hi hA.2.2
    obtain ⟨j, rfl⟩ := integral_of_category hi hB.2.2
    refine ⟨i, j, rfl, rfl, ?_⟩
    rw [operator_lt_of_bound P hA hB]
    simp [not_string_of_integral hi, native_lt]
  · left
    refine ⟨hs, ?_⟩
    rw [operator_lt_of_bound P hA hB]
    simp [hs]

/-- Rebinding through any facade holding the handle re-points the one shared adapter. -/
theorem operator_assign_ptr_of_bound {σ : State} {r : Reflect} {k : Kind} {l1 : Loc}
    {v1 : Value} (l2 : Loc) (hb : Bound σ r k l1 v1) :
    ∃ h, r.value = some h ∧ h < σ.heap.length ∧
      r.operator_assign_ptr (some l2) σ
        = some (l2, ⟨σ.mem, σ.heap.set h (TypeBase.Reflect_ k (some l2))⟩) := by
  obtain ⟨h, hr, hh⟩ := value_of_bound hb
  have hlt : h < σ.heap.length := by
    by_contra hc
    have := List.getElem?_eq_none (Nat.le_of_not_lt hc)
    simp [this] at hh
  exact ⟨h, hr, hlt, by simp [Reflect.operator_assign_ptr, hr, hh, TypeBase.bind, TypeBase.get]⟩

/-- After a rebind to a live object of the same kind, every facade holding the
handle is bound to the new location. -/
theorem bound_after_rebind {σ : State} {r : Reflect} {k : Kind} {l2 : Loc} {v2 : Value}
    {h : Handle} (hr : r.value = some h) (hlt : h < σ.heap.length)
    (h2 : σ.mem l2 = some ⟨k, v2⟩) (hv2 : k.category = v2.category) :
    Bound ⟨σ.mem, σ.heap.set h (TypeBase.Reflect_ k (some l2))⟩ r k l2 v2 := by
  refine ⟨?_, h2, hv2⟩
  simp [Reflect.deref, hr, hlt]

/-- In a strict total collation order exactly one of two distinct tokens is before the other. -/
theorem before_asymm {P : Platform} (hP : P.Collation) {s t : type_info} (hne : s ≠ t) :
    P.before s t = !P.before t s := by
  cases hst : P.before s t <;> cases hts : P.before t s <;> simp
  · rcases hP.total s t hne with h | h
    · simp [hst] at h
    · simp [hts] at h
  · have h := hP.trans s t s hst hts
    simp [hP.irrefl s] at h

theorem index_injective {s t : type_info} (h : s.index = t.index) : s = t := by
  rcases s with _ | ks <;> rcases t with _ | kt
  · rfl
  · cases kt <;> simp [type_info.index, Kind.index] at h
  · cases ks <;> simp [type_info.index, Kind.index] at h
  · cases ks <;> cases kt <;> first | rfl | simp [type_info.index, Kind.index] at h

theorem samplePlatform_collation : samplePlatform.Collation where
  irrefl a := by simp [samplePlatform]
  trans a b c hab hbc := by
    simp only [samplePlatform, decide_eq_true_eq] at hab hbc ⊢
    exact Nat.lt_trans hab hbc
  total a b hne := by
    simp only [samplePlatform, decide_eq_true_eq]
    rcases Nat.lt_trichotomy a.index b.index with h | h | h
    · exact Or.inl h
    · exact absurd (index_injective h) hne
    · exact Or.inr h

/-- The binding constructor, given the address of a live object, yields a bound facade. -/
theorem bound_ctor_ptr {σ : State} {k : Kind} {l : Loc} {v : Value}
    (hm : σ.mem l = some ⟨k, v⟩) (hv : k.category = v.category) :
    Bound (Reflect.ctor_ptr k (some l) σ).2 (Reflect.ctor_ptr k (some l) σ).1 k l v := by
  refine ⟨?_, hm, hv⟩
  simp [Reflect.ctor_ptr, Reflect.deref]

/-- Constructing another facade leaves the existing ones bound as they were. -/
theorem bound_after_ctor_ptr {σ : State} {r : Reflect} {k k2 : Kind} {l : Loc} {v : Value}
    (x : Ptr) (hb : Bound σ r k l v) : Bound (Reflect.ctor_ptr k2 x σ).2 r k l v := by
  obtain ⟨h, hr, hh⟩ := value_of_bound hb
  have hlt : h < σ.heap.length := by
    by_contra hc
    have := List.getElem?_eq_none (Nat.le_of_not_lt hc)
    simp [this] at hh
  refine ⟨?_, hb.2.1, hb.2.2⟩
  simp [Reflect.ctor_ptr, Reflect.deref, hr, List.getElem?_append_left hlt, hh]

/-- Two facades bound to text never compare less, whatever the strings. -/
theorem operator_lt_text (P : Platform) {σ : State} {A B : Reflect} {LA LB : Loc} {a b : Value}
    (hA : Bound σ A Kind.string LA a) (hB : Bound σ B Kind.string LB b) :
    A.operator_lt P B σ = some false := by
  rw [operator_lt_of_bound P hA hB]
  simp

/-! ## Claims -/

/-- C1: after assignment by value through a facade bound to `L` of kind `K`, from an
object `x` holding `v`, the storage at `L` holds `v`, the text conversion is the
canonical text of `v`, and both the typed conversion of the facade and the
reference returned by the assignment read `v`. -/
theorem assign_by_value_round_trip (P : Platform) (σ : State) (r : Reflect) (K : Kind)
    (L x : Loc) (old v : Value)
    (hb : Bound σ r K L old) (hx : σ.mem x = some ⟨K, v⟩) (hv : K.category = v.category) :
    ∃ ref σ2, r.operator_assign x σ = some (ref, σ2) ∧
      σ2.mem L = some ⟨K, v⟩ ∧
      r.operator_string P σ2 = some (render P K v) ∧
      r.read_back P K σ2 = some v ∧
      load σ2.mem K ref = some v := by
  have hb2 := bound_after_store hb hv
  refine ⟨L, _, operator_assign_of_bound hb hx hv, by simp,
    operator_string_of_bound P hb2, read_back_of_bound P hb2, load_of_bound hb2⟩

theorem assign_by_value_round_trip_witness :
    Bound sampleState (sampleFacade 0) Kind.uint8_t 0 (Value.integral 123) ∧
    sampleState.mem 1 = some ⟨Kind.uint8_t, Value.integral 234⟩ ∧
    ∃ ref σ2, (sampleFacade 0).operator_assign 1 sampleState = some (ref, σ2) ∧
      σ2.mem 0 = some ⟨Kind.uint8_t, Value.integral 234⟩ ∧
      (sampleFacade 0).operator_string samplePlatform σ2
        = some (render samplePlatform Kind.uint8_t (Value.integral 234)) ∧
      (sampleFacade 0).read_back samplePlatform Kind.uint8_t σ2 = some (Value.integral 234) ∧
      load σ2.mem Kind.uint8_t ref = some (Value.integral 234) :=
  ⟨by decide, by decide,
    assign_by_value_round_trip samplePlatform sampleState (sampleFacade 0) Kind.uint8_t 0 1
      (Value.integral 123) (Value.integral 234) (by decide) (by decide) (by decide)⟩

/-- C2: the text conversion of a facade bound to `L` is the decimal rendering of the
integer currently stored at `L`, or the stored string itself for text; after `L`
is overwritten from outside the facade, the next text conversion gives the new
value, with no rebinding. -/
theorem text_conversion_reads_live_storage (P : Platform) (σ : State) (r : Reflect) (K : Kind)
    (L : Loc) (v w : Value) (hb : Bound σ r K L v) (hw : K.category = w.category) :
    (∀ i, v = Value.integral i → r.operator_string P σ = some (to_string i)) ∧
    (∀ s, v = Value.text s → r.operator_string P σ = some s) ∧
    ∃ mem2, store σ.mem K L w = some mem2 ∧
      (∀ i, w = Value.integral i → r.operator_string P ⟨mem2, σ.heap⟩ = some (to_string i)) ∧
      (∀ s, w = Value.text s → r.operator_string P ⟨mem2, σ.heap⟩ = some s) := by
  have h1 := operator_string_of_bound P hb
  have h2 := operator_string_of_bound P (bound_after_store hb hw)
  refine ⟨?_, ?_, _, store_of_live w hb.2.1, ?_, ?_⟩
  · intro i hi
    subst hi
    simpa [render] using h1
  · intro s hs
    subst hs
    simpa [render] using h1
  · intro i hi
    subst hi
    simpa [render] using h2
  · intro s hs
    subst hs
    simpa [render] using h2

theorem text_conversion_reads_live_storage_witness :
    Bound sampleState (sampleFacade 0) Kind.uint8_t 0 (Value.integral 123) ∧
    (sampleFacade 0).operator_string samplePlatform sampleState = some "123" ∧
    ∃ mem2, store sampleState.mem Kind.uint8_t 0 (Value.integral 111) = some mem2 ∧
      (sampleFacade 0).operator_string samplePlatform ⟨mem2, sampleState.heap⟩ = some "111" := by
  have h := text_conversion_reads_live_storage samplePlatform sampleState (sampleFacade 0)
    Kind.uint8_t 0 (Value.integral 123) (Value.integral 111) (by decide) (by decide)
  obtain ⟨h1, _, mem2, h3, h4, _⟩ := h
  exact ⟨by decide, h1 123 rfl, mem2, h3, h4 111 rfl⟩

/-- C3: a copy-constructed facade holds the same handle as its source (no adapter is
created), and after an assignment by value of `v` through either of the two, the
text conversion and the typed read-back of the other one yield `v`. -/
theorem copy_shares_adapter (P : Platform) (σ : State) (A : Reflect) (K : Kind)
    (L x : Loc) (old v : Value)
    (hb : Bound σ A K L old) (hx : σ.mem x = some ⟨K, v⟩) (hv : K.category = v.category) :
    (Reflect.ctor_copy A).value = A.value ∧
    (∃ ref σ2, A.operator_assign x σ = some (ref, σ2) ∧ σ2.heap = σ.heap ∧
      (Reflect.ctor_copy A).operator_string P σ2 = some (render P K v) ∧
      (Reflect.ctor_copy A).read_back P K σ2 = some v) ∧
    (∃ ref σ2, (Reflect.ctor_copy A).operator_assign x σ = some (ref, σ2) ∧ σ2.heap = σ.heap ∧
      A.operator_string P σ2 = some (render P K v) ∧
      A.read_back P K σ2 = some v) := by
  have hb2 := bound_after_store hb hv
  have hc : Reflect.ctor_copy A = A := rfl
  rw [hc]
  exact ⟨rfl,
    ⟨L, _, operator_assign_of_bound hb hx hv, rfl, operator_string_of_bound P hb2,
      read_back_of_bound P hb2⟩,
    ⟨L, _, operator_assign_of_bound hb hx hv, rfl, operator_string_of_bound P hb2,
      read_back_of_bound P hb2⟩⟩

theorem copy_shares_adapter_witness :
    Bound sampleState (sampleFacade 3) Kind.string 3 (Value.text "a") ∧
    (Reflect.ctor_copy (sampleFacade 3)).value = some 3 ∧
    (∃ ref σ2, (sampleFacade 3).operator_assign 4 sampleState = some (ref, σ2) ∧
      σ2.heap = sampleState.heap ∧
      (Reflect.ctor_copy (sampleFacade 3)).operator_string samplePlatform σ2 = some "b" ∧
      (Reflect.ctor_copy (sampleFacade 3)).read_back samplePlatform Kind.string σ2
        = some (Value.text "b")) :=
  ⟨by decide, rfl,
    (copy_shares_adapter samplePlatform sampleState (sampleFacade 3) Kind.string 3 4
      (Value.text "a") (Value.text "b") (by decide) (by decide) (by decide)).2.1⟩

/-- C5: for an integer kind `K` (fixed-width signed and unsigned, `long`, `char`, `bool`)
and two facades bound to values `a` and `b` of kind `K`, `A < B` returns true
exactly when `a < b`. -/
theorem same_kind_integer_ordering (P : Platform) (σ : State) (A B : Reflect) (K : Kind)
    (LA LB : Loc) (a b : Int) (hK : K.category = Category.integral)
    (hA : Bound σ A K LA (Value.integral a)) (hB : Bound σ B K LB (Value.integral b)) :
    A.operator_lt P B σ = some (decide (a < b)) ∧
    (A.operator_lt P B σ = some true ↔ a < b) := by
  have h : A.operator_lt P B σ = some (decide (a < b)) := by
    rw [operator_lt_of_bound P hA hB]
    simp [not_string_of_integral hK, native_lt]
  exact ⟨h, by simp [h]⟩

theorem same_kind_integer_ordering_witness :
    (sampleFacade 0).operator_lt samplePlatform (sampleFacade 1) sampleState = some true ∧
    (sampleFacade 1).operator_lt samplePlatform (sampleFacade 0) sampleState = some false ∧
    (sampleFacade 0).operator_lt samplePlatform (sampleFacade 0) sampleState = some false :=
  ⟨(same_kind_integer_ordering samplePlatform sampleState (sampleFacade 0) (sampleFacade 1)
      Kind.uint8_t 0 1 123 234 (by decide) (by decide) (by decide)).1,
   (same_kind_integer_ordering samplePlatform sampleState (sampleFacade 1) (sampleFacade 0)
      Kind.uint8_t 1 0 234 123 (by decide) (by decide) (by decide)).1,
   (same_kind_integer_ordering samplePlatform sampleState (sampleFacade 0) (sampleFacade 0)
      Kind.uint8_t 0 0 123 123 (by decide) (by decide) (by decide)).1⟩

/-- C8: for a bound facade `F` and a string `s`, `F == s` returns true exactly when `s`
is the text conversion of `F`, that is, the canonical text of the bound value. -/
theorem equality_against_text (P : Platform) (σ : State) (F : Reflect) (K : Kind) (L : Loc)
    (v : Value) (s : String) (hb : Bound σ F K L v) :
    ∃ b, F.operator_eq P s σ = some b ∧
      (b = true ↔ F.operator_string P σ = some s) ∧
      (b = true ↔ s = render P K v) := by
  obtain ⟨h, hr, hh⟩ := value_of_bound hb
  refine ⟨decide (s = render P K v), ?_, ?_, by simp⟩
  · simp [Reflect.operator_eq, hb.1, TypeBase.string, load_of_bound hb]
  · rw [operator_string_of_bound P hb]
    simp [eq_comm]

theorem equality_against_text_witness :
    Bound sampleState (sampleFacade 2) Kind.uint16_t 2 (Value.integral 5) ∧
    (sampleFacade 2).operator_eq samplePlatform "5" sampleState = some true ∧
    (sampleFacade 2).operator_eq samplePlatform "05" sampleState = some false := by
  obtain ⟨b1, e1, _, c1⟩ := equality_against_text samplePlatform sampleState (sampleFacade 2)
    Kind.uint16_t 2 (Value.integral 5) "5" (by decide)
  obtain ⟨b2, e2, _, c2⟩ := equality_against_text samplePlatform sampleState (sampleFacade 2)
    Kind.uint16_t 2 (Value.integral 5) "05" (by decide)
  have t1 : b1 = true := c1.2 (by decide)
  have t2 : b2 = false := by
    cases b2 with
    | false => rfl
    | true => exact absurd (c2.1 rfl) (by decide)
  subst t1
  subst t2
  exact ⟨by decide, e1, e2⟩

/-- C9: two bound facades report equal `type()` tokens exactly when they are bound to
values of the same kind, whatever the adapters, locations and values; the
fourteen supported kinds have fourteen pairwise distinct tokens. -/
theorem kind_identity_injective (σ1 σ2 : State) (A B : Reflect) (KA KB : Kind) (LA LB : Loc)
    (a b : Value) (hA : Bound σ1 A KA LA a) (hB : Bound σ2 B KB LB b) :
    A.type σ1 = some (type_info.RTYPE KA) ∧ B.type σ2 = some (type_info.RTYPE KB) ∧
    (A.type σ1 = B.type σ2 ↔ KA = KB) ∧
    Kind.all.length = 14 ∧ (∀ k : Kind, k ∈ Kind.all) ∧
    (Kind.all.map type_info.RTYPE).Nodup := by
  refine ⟨type_of_bound hA, type_of_bound hB, ?_, rfl, ?_, by decide⟩
  · rw [type_of_bound hA, type_of_bound hB]
    simp
  · intro k
    cases k <;> decide

theorem kind_identity_injective_witness :
    (sampleFacade 0).type sampleState = some (type_info.RTYPE Kind.uint8_t) ∧
    (sampleFacade 0).type sampleState ≠ some (type_info.RTYPE Kind.uint16_t) ∧
    ((sampleFacade 0).type sampleState = (sampleFacade 1).type sampleState) ∧
    ((sampleFacade 0).type sampleState ≠ (sampleFacade 2).type sampleState) := by
  have h01 := kind_identity_injective sampleState sampleState (sampleFacade 0) (sampleFacade 1)
    Kind.uint8_t Kind.uint8_t 0 1 (Value.integral 123) (Value.integral 234)
    (by decide) (by decide)
  have h02 := kind_identity_injective sampleState sampleState (sampleFacade 0) (sampleFacade 2)
    Kind.uint8_t Kind.uint16_t 0 2 (Value.integral 123) (Value.integral 5)
    (by decide) (by decide)
  refine ⟨h01.1, ?_, h01.2.2.1.2 rfl, fun e => absurd (h02.2.2.1.1 e) (by decide)⟩
  rw [h01.1]
  decide

/-- C4, as stated, fails: `x` at 0 holds 123 and `y` at 1 holds 234; after
`Reflect A(&x); Reflect B(A); B = &y;` the text conversion of `A` is "234", the
text of `y`, not "123", and an assignment by value through `A` then overwrites
`y` and leaves `x` alone. -/
theorem rebind_isolation_counterexample :
    sampleMem 0 = some ⟨Kind.uint8_t, Value.integral 123⟩ ∧
    sampleMem 1 = some ⟨Kind.uint8_t, Value.integral 234⟩ ∧
    sampleMem 2 = some ⟨Kind.uint16_t, Value.integral 5⟩ ∧
    to_string 123 = "123" ∧
    rebindTrace = some "234" ∧
    rebindThenAssignTrace
      = some (some ⟨Kind.uint8_t, Value.integral 123⟩, some ⟨Kind.uint8_t, Value.integral 77⟩) := by
  decide

/-- C4, amended: a copy shares the adapter, so after the copy `B` of `A` is rebound to
a different live location `L2` of the same kind, both `B` and `A` observe `L2`:
their text conversions are the text of the value at `L2`, and an assignment by
value through `A` changes `L2` and leaves `L1` unchanged. -/
theorem rebind_is_shared (P : Platform) (σ : State) (A : Reflect) (K : Kind)
    (L1 L2 x : Loc) (v1 v2 v : Value)
    (hb : Bound σ A K L1 v1) (h2 : σ.mem L2 = some ⟨K, v2⟩) (hv2 : K.category = v2.category)
    (hne : L1 ≠ L2) (hx : σ.mem x = some ⟨K, v⟩) (hv : K.category = v.category) :
    ∃ ref σ2, (Reflect.ctor_copy A).operator_assign_ptr (some L2) σ = some (ref, σ2) ∧
      ref = L2 ∧ σ2.mem = σ.mem ∧
      (Reflect.ctor_copy A).operator_string P σ2 = some (render P K v2) ∧
      A.operator_string P σ2 = some (render P K v2) ∧
      ∃ ref3 σ3, A.operator_assign x σ2 = some (ref3, σ3) ∧
        σ3.mem L2 = some ⟨K, v⟩ ∧ σ3.mem L1 = some ⟨K, v1⟩ := by
  have hc : Reflect.ctor_copy A = A := rfl
  rw [hc]
  obtain ⟨h, hr, hlt, hop⟩ := operator_assign_ptr_of_bound L2 hb
  have hb2 := bound_after_rebind hr hlt h2 hv2
  refine ⟨L2, _, hop, rfl, rfl, operator_string_of_bound P hb2, operator_string_of_bound P hb2,
    L2, _, operator_assign_of_bound hb2 hx hv, by simp, ?_⟩
  simp [hne, hb.2.1]

theorem rebind_is_shared_witness :
    Bound sampleState (sampleFacade 0) Kind.uint8_t 0 (Value.integral 123) ∧
    ∃ ref σ2, (Reflect.ctor_copy (sampleFacade 0)).operator_assign_ptr (some 1) sampleState
        = some (ref, σ2) ∧
      ref = 1 ∧ σ2.mem = sampleState.mem ∧
      (Reflect.ctor_copy (sampleFacade 0)).operator_string samplePlatform σ2
        = some (render samplePlatform Kind.uint8_t (Value.integral 234)) ∧
      (sampleFacade 0).operator_string samplePlatform σ2
        = some (render samplePlatform Kind.uint8_t (Value.integral 234)) ∧
      ∃ ref3 σ3, (sampleFacade 0).operator_assign 0 σ2 = some (ref3, σ3) ∧
        σ3.mem 1 = some ⟨Kind.uint8_t, Value.integral 123⟩ ∧
        σ3.mem 0 = some ⟨Kind.uint8_t, Value.integral 123⟩ :=
  ⟨by decide,
    rebind_is_shared samplePlatform sampleState (sampleFacade 0) Kind.uint8_t 0 1 0
      (Value.integral 123) (Value.integral 234) (Value.integral 123)
      (by decide) (by decide) (by decide) (by decide) (by decide) (by decide)⟩

/-- C6 fails on the code: with "a" at 3 and "b" at 4, "a" is lexicographically before
"b", yet `A < B` on the two text facades returns false (as does `B < A`). -/
theorem text_ordering_at_failing_input :
    Bound sampleState (sampleFacade 3) Kind.string 3 (Value.text "a") ∧
    Bound sampleState (sampleFacade 4) Kind.string 4 (Value.text "b") ∧
    "a" < "b" ∧
    (sampleFacade 3).operator_lt samplePlatform (sampleFacade 4) sampleState = some false ∧
    (sampleFacade 4).operator_lt samplePlatform (sampleFacade 3) sampleState = some false :=
  ⟨by decide, by decide, String.lt_iff_toList_lt.mpr (by decide), by decide, by decide⟩

/-- C10 fails on the code: on a default-constructed facade only the text conversion
is defined (the empty string); `U == s`, `type()`, `U < F` and `F < U` all
dereference the null handle. -/
theorem unbound_facade_operations (P : Platform) (σ : State) (s : String) (F : Reflect) :
    Reflect.ctor_default.operator_string P σ = some "" ∧
    Reflect.ctor_default.operator_eq P s σ = none ∧
    Reflect.ctor_default.type σ = none ∧
    Reflect.ctor_default.operator_lt P F σ = none ∧
    F.operator_lt P Reflect.ctor_default σ = none := by
  refine ⟨rfl, rfl, rfl, rfl, ?_⟩
  unfold Reflect.operator_lt
  cases F.type σ <;> rfl

/-- C7: for two bound facades of different kinds, `A < B` is `before` on the two kind
tokens (so it does not depend on the bound values or on the call), and exactly
one of `A < B`, `B < A` is true; on bound facades of non-floating kinds
`operator<` is irreflexive and transitive, whichever of the two comparisons each
step of a chain uses. -/
theorem mixed_kind_ordering (P : Platform) (hP : P.Collation) (σ : State)
    (A B C : Reflect) (KA KB KC : Kind) (LA LB LC : Loc) (a b c : Value)
    (hA : Bound σ A KA LA a) (hB : Bound σ B KB LB b) (hC : Bound σ C KC LC c) :
    (KA ≠ KB →
      A.operator_lt P B σ = some (P.before (type_info.RTYPE KA) (type_info.RTYPE KB)) ∧
      B.operator_lt P A σ = some (P.before (type_info.RTYPE KB) (type_info.RTYPE KA)) ∧
      P.before (type_info.RTYPE KA) (type_info.RTYPE KB)
        = !P.before (type_info.RTYPE KB) (type_info.RTYPE KA)) ∧
    (KA.category ≠ Category.floating → A.operator_lt P A σ = some false) ∧
    (KA.category ≠ Category.floating → KB.category ≠ Category.floating →
      KC.category ≠ Category.floating →
      A.operator_lt P B σ = some true → B.operator_lt P C σ = some true →
      A.operator_lt P C σ = some true) := by
  refine ⟨?_, ?_, ?_⟩
  · intro hne
    refine ⟨?_, ?_, before_asymm hP (by simpa using hne)⟩
    · rw [operator_lt_of_bound P hA hB]
      simp [hne]
    · rw [operator_lt_of_bound P hB hA]
      simp [Ne.symm hne]
  · intro hf
    rcases operator_lt_same_kind P hA hA hf with ⟨_, h⟩ | ⟨i, j, hi, hj, h⟩
    · exact h
    · have hij : i = j := by
        have := hi.symm.trans hj
        simpa using this
      subst hij
      simpa using h
  · intro hfA hfB _ hAB hBC
    rw [operator_lt_of_bound P hA hB] at hAB
    rw [operator_lt_of_bound P hB hC] at hBC
    rw [operator_lt_of_bound P hA hC]
    by_cases hab : KA = KB
    · subst hab
      by_cases hbc : KA = KC
      · subst hbc
        rcases integral_or_string hfA with hi | hs
        · obtain ⟨i, rfl⟩ := integral_of_category hi hA.2.2
          obtain ⟨j, rfl⟩ := integral_of_category hi hB.2.2
          obtain ⟨k, rfl⟩ := integral_of_category hi hC.2.2
          have hns := not_string_of_integral hi
          simp only [hns, native_lt, if_true, if_false, Option.some.injEq,
            decide_eq_true_eq] at hAB hBC ⊢
          exact lt_trans hAB hBC
        · simp [hs] at hAB
      · simp only [hbc, if_false] at hBC ⊢
        exact hBC
    · by_cases hbc : KB = KC
      · subst hbc
        simp only [hab, if_false] at hAB ⊢
        exact hAB
      · simp only [hab, hbc, if_false, Option.some.injEq] at hAB hBC
        have hac := hP.trans _ _ _ hAB hBC
        have hne : KA ≠ KC := by
          intro e
          subst e
          have h := hP.trans _ _ _ hAB hBC
          simp [hP.irrefl] at h
        simp [hne, hac]

theorem mixed_kind_ordering_witness :
    (sampleFacade 0).operator_lt samplePlatform (sampleFacade 1) sampleState = some true ∧
    (sampleFacade 1).operator_lt samplePlatform (sampleFacade 2) sampleState = some true ∧
    (sampleFacade 0).operator_lt samplePlatform (sampleFacade 2) sampleState = some true ∧
    (sampleFacade 0).operator_lt samplePlatform (sampleFacade 0) sampleState = some false := by
  have h := mixed_kind_ordering samplePlatform samplePlatform_collation sampleState
    (sampleFacade 0) (sampleFacade 1) (sampleFacade 2) Kind.uint8_t Kind.uint8_t Kind.uint16_t
    0 1 2 (Value.integral 123) (Value.integral 234) (Value.integral 5)
    (by decide) (by decide) (by decide)
  have h01 : (sampleFacade 0).operator_lt samplePlatform (sampleFacade 1) sampleState
      = some true := by decide
  have h12 : (sampleFacade 1).operator_lt samplePlatform (sampleFacade 2) sampleState
      = some true := by decide
  exact ⟨h01, h12, h.2.2 (by decide) (by decide) (by decide) h01 h12, h.2.1 (by decide)⟩

end Hellebore
